import Mathlib

/-!
Verification of the turn-taking / audio-pipeline core of a LiveKit voice
agent.  The embedded modules are:

* `tts.ts`    — the speech synthesis pipeline (`speak`, `stopSpeaking`);
* `agent.ts`  — the coordinator's inbound-frame loop (`hasAudioEnergy`,
                interruption, watchdog re-arming, STT forwarding);
* `stt.ts`    — the resilient Deepgram transcription client (keepalive,
                reconnect, message gating);
* `silence.ts`— the silence watchdog (`resetSilenceTimer`).

Stateful code is embedded as explicit state-passing step functions; the
`await` suspension points of `speak` are made explicit so that the
interleavings of the single-threaded event loop can be quantified over.
-/

set_option linter.unusedVariables false

set_option maxRecDepth 10000

namespace VoiceAgent

/-- Modelled from the spec: the shared agent state enum.  `src/state.ts` is
not among the provided sources; §3 of the spec defines it as the
three-valued enum `Listening | Processing | Speaking`, mutated only through
`updateState`-style transitions. -/
inductive AgentState
  | LISTENING
  | PROCESSING
  | SPEAKING
deriving DecidableEq, Repr

/-! ## Speech synthesis pipeline (`tts.ts`) -/

/-- `SAMPLES_PER_FRAME` in `tts.ts`: 10 ms per frame = 480 samples @ 48 kHz
mono. -/
def SAMPLES_PER_FRAME : Nat := 480

/-- The point, if any, at which `stopSpeaking()` clears the module flag
`isSpeaking` while `speak` is suspended at one of its `await`s.  The code
runs on a single-threaded event loop, so the flag can only change while
`speak` is suspended: during the synthesis fetch, during the ffmpeg
conversion, or during the `captureFrame` of some frame `i`. -/
inductive StopAt
  | never
  | duringFetch
  | duringConvert
  | duringFrame (i : Nat)
deriving DecidableEq, Repr

/-- Environment of one `speak(text)` execution: whether `registerRoom` has
run, the outcomes of the two external calls (network error or MP3 byte
length; ffmpeg error or decoded PCM samples), the interleaving of
`stopSpeaking`, and an optional frame index at which `captureFrame`
rejects. -/
structure SpeakEnv where
  registered : Bool
  fetchOutcome : Except Unit Nat
  convertOutcome : Except Unit (List Int)
  stopAt : StopAt
  frameErrAt : Option Nat
deriving Repr

/-- Observable result of one `speak` execution: the frames handed to
`audioSource.captureFrame` in order, the `updateState` calls made in order,
and the value of the `isSpeaking` flag when the promise settles. -/
structure SpeakResult where
  sent : List (List Int)
  stateTrace : List AgentState
  finalFlag : Bool
deriving DecidableEq, Repr

/-- The full 480-sample chunks of a PCM buffer, in order, exactly as the
loop header `offset + SAMPLES_PER_FRAME <= int16Data.length` walks them;
the trailing residue of fewer than 480 samples yields no chunk. -/
def fullChunks (samples : List Int) : List (List Int) :=
  if h : SAMPLES_PER_FRAME ≤ samples.length then
    samples.take SAMPLES_PER_FRAME :: fullChunks (samples.drop SAMPLES_PER_FRAME)
  else []
termination_by samples.length
decreasing_by
  simp only [List.length_drop, SAMPLES_PER_FRAME] at *
  omega

/-- Whether the `isSpeaking` flag reads `false` at the check opening loop
iteration `k`: a stop during an earlier phase is always visible; a stop
during frame `i`'s `captureFrame` await is first visible at iteration
`i + 1` (the in-flight frame always completes). -/
def stopObservedAt : StopAt → Nat → Bool
  | .never, _ => false
  | .duringFetch, _ => true
  | .duringConvert, _ => true
  | .duringFrame i, k => decide (i < k)

/-- The frame-send loop of `speak` (step 3 in `tts.ts`), iterating over the
full chunks starting at iteration index `k`: each iteration first checks
the `isSpeaking` flag (a cleared flag breaks the loop), then issues
`captureFrame` (a rejection at index `k` throws out of the loop before the
frame is delivered), then counts the frame as sent. -/
def sendLoop (stopAt : StopAt) (frameErrAt : Option Nat) :
    Nat → List (List Int) → List (List Int)
  | _, [] => []
  | k, c :: rest =>
    if stopObservedAt stopAt k then []
    else if frameErrAt = some k then []
    else c :: sendLoop stopAt frameErrAt (k + 1) rest

/-- One `speak(text)` execution (`tts.ts`), as a function of its
environment.  Mirrors the source: the unregistered guard returns before the
`try` (no state update at all); inside the `try`, the MP3 is fetched, the
tiny-payload guard and the first flag check run before conversion, the
second flag check and the empty-PCM guard run before the frame loop; the
`finally` always clears the flag and restores `LISTENING`. -/
def speak (env : SpeakEnv) : SpeakResult :=
  if env.registered = false then
    { sent := [], stateTrace := [], finalFlag := false }
  else
    match env.fetchOutcome with
    | .error _ =>
      { sent := [], stateTrace := [.SPEAKING, .LISTENING], finalFlag := false }
    | .ok mp3Len =>
      if mp3Len < 100 then
        { sent := [], stateTrace := [.SPEAKING, .LISTENING], finalFlag := false }
      else if env.stopAt = .duringFetch then
        { sent := [], stateTrace := [.SPEAKING, .LISTENING], finalFlag := false }
      else
        match env.convertOutcome with
        | .error _ =>
          { sent := [], stateTrace := [.SPEAKING, .LISTENING], finalFlag := false }
        | .ok pcm =>
          if env.stopAt = .duringConvert then
            { sent := [], stateTrace := [.SPEAKING, .LISTENING], finalFlag := false }
          else if pcm.length = 0 then
            { sent := [], stateTrace := [.SPEAKING, .LISTENING], finalFlag := false }
          else
            { sent := sendLoop env.stopAt env.frameErrAt 0 (fullChunks pcm),
              stateTrace := [.SPEAKING, .LISTENING], finalFlag := false }

/-- The statements of `speak`'s body in source order (logging dropped):
the unregistered guard, the flag set, the `SPEAKING` state update, the
synthesis fetch, the tiny-MP3 guard, the first `!isSpeaking` check, the
ffmpeg conversion, the second `!isSpeaking` check, the empty-PCM guard, the
frame loop (whose per-iteration flag check is internal to the op), and the
`finally` clause's flag clear and `LISTENING` state update. -/
inductive SpeakOp
  | guardUnregistered
  | setFlagTrue
  | updStateSpeaking
  | fetchMp3
  | guardTinyMp3
  | checkFlag
  | convertPcm
  | guardEmptyPcm
  | frameLoopPerFrameCheck
  | clearFlag
  | updStateListening
deriving DecidableEq, Repr

/-- The op-by-op transcription of `speak`'s body (`tts.ts`). -/
def speakOps : List SpeakOp :=
  [SpeakOp.guardUnregistered, SpeakOp.setFlagTrue, SpeakOp.updStateSpeaking,
   SpeakOp.fetchMp3, SpeakOp.guardTinyMp3, SpeakOp.checkFlag,
   SpeakOp.convertPcm, SpeakOp.checkFlag, SpeakOp.guardEmptyPcm,
   SpeakOp.frameLoopPerFrameCheck, SpeakOp.clearFlag, SpeakOp.updStateListening]

/-! ## Coordinator frame loop (`agent.ts`) -/

/-- `SPEECH_RMS_THRESHOLD` in `agent.ts`. -/
def SPEECH_RMS_THRESHOLD : Int := 300

/-- The accumulator of `hasAudioEnergy`: the sum of squared samples. -/
def sumSq (data : List Int) : Int :=
  data.foldl (fun acc d => acc + d * d) 0

/-- `hasAudioEnergy` (`agent.ts`): the source computes
`Math.sqrt(sumSq / data.length) > SPEECH_RMS_THRESHOLD`.  For integer
sample data this is equivalent to `sumSq > 300 ^ 2 * length`: both sides of
the source comparison are nonnegative, squaring is strictly monotone, and
the float division and square root cannot cross the boundary (all operands
are exact below 2 ^ 53, and an exact quotient other than 90000 differs from
90000 by at least `1 / length`, far above one ulp).  The empty frame gives
`NaN > 300 = false` in the source and `0 < 0 = false` here. -/
def hasAudioEnergy (data : List Int) : Bool :=
  decide (SPEECH_RMS_THRESHOLD ^ 2 * (data.length : Int) < sumSq data)

/-- The coordinator state read by one frame-loop iteration: `agent.ts`'s
`state` variable and the `tts.ts` flag observed through `isSpeakingNow()`. -/
structure CoordState where
  state : AgentState
  isSpeaking : Bool
deriving DecidableEq, Repr

/-- Calls a frame-loop iteration makes: `stopSpeaking()`,
`resetSilenceTimer()`, and `stt.sendAudio(buffer)`. -/
inductive CoordAction
  | stopSpeakingCall
  | resetSilence
  | sendAudio (frame : List Int)
deriving DecidableEq, Repr

/-- One iteration of the inbound-frame loop in `startAgent` (`agent.ts`):
if the agent is speaking and the frame carries energy, stop the agent and
fall back to `LISTENING`; if the frame carries energy, re-arm the silence
watchdog; always forward the raw frame to `stt.sendAudio`. -/
def processFrame (s : CoordState) (frame : List Int) :
    CoordState × List CoordAction :=
  let p1 :=
    if s.isSpeaking && hasAudioEnergy frame then
      ({ s with isSpeaking := false, state := AgentState.LISTENING },
        [CoordAction.stopSpeakingCall])
    else (s, ([] : List CoordAction))
  let a2 :=
    if hasAudioEnergy frame then [CoordAction.resetSilence]
    else ([] : List CoordAction)
  (p1.1, p1.2 ++ a2 ++ [CoordAction.sendAudio frame])

/-! ## Resilient transcription client (`stt.ts`) -/

/-- `KEEPALIVE_MS` in `stt.ts`. -/
def KEEPALIVE_MS : Nat := 8000

/-- `RECONNECT_MS` in `stt.ts`. -/
def RECONNECT_MS : Nat := 1000

/-- Modelled from the spec: the backend's idle-close window.  Deepgram's
timeout is not a constant of the source; the `stt.ts` module comment states
the keepalive "must be < Deepgram's 10-second idle timeout". -/
def DEEPGRAM_IDLE_CLOSE_MS : Nat := 10000

/-- The mutable state of `startSTT`'s closure: whether the socket is open
(`ws.readyState === OPEN`), the period of the running keepalive interval if
any, the deliberate-shutdown flag `dead`, and a count of close events seen
(history only; the source keeps no such counter, which is what makes the
reconnect policy ceiling-free). -/
structure STTState where
  wsOpen : Bool
  keepalivePeriod : Option Nat
  dead : Bool
  closes : Nat
deriving DecidableEq, Repr

/-- Externally visible calls the client makes: sending the
`{"type":"KeepAlive"}` control message, scheduling `connect` after a delay,
and forwarding an audio buffer of a given byte length to the socket. -/
inductive STTAction
  | sendKeepAlive
  | scheduleConnect (delayMs : Nat)
  | forwardAudio (len : Nat)
deriving DecidableEq, Repr

/-- The `open` handler (`stt.ts`): clears any running keepalive interval
and starts a fresh one with period `KEEPALIVE_MS`. -/
def openHandler (s : STTState) : STTState :=
  { s with wsOpen := true, keepalivePeriod := some KEEPALIVE_MS }

/-- One firing of the keepalive interval (`stt.ts`): sends the keepalive
control message iff the socket is currently open.  It consults nothing but
the socket state — in particular no audio-flow information. -/
def keepaliveTick (s : STTState) : List STTAction :=
  if s.wsOpen then [STTAction.sendKeepAlive] else []

/-- The `close` handler (`stt.ts`): clears the keepalive timer if one is
running, and unless `dead` is set schedules exactly one `connect` after
`RECONNECT_MS`. -/
def closeHandler (s : STTState) : STTState × List STTAction :=
  ({ s with wsOpen := false, keepalivePeriod := none, closes := s.closes + 1 },
   if s.dead then [] else [STTAction.scheduleConnect RECONNECT_MS])

/-- Events the client reacts to: socket open, socket close, a keepalive
interval firing, and a caller invoking `sendAudio` with a buffer of the
given byte length. -/
inductive STTEvent
  | openEv
  | closeEv
  | tick
  | audio (len : Nat)
deriving DecidableEq, Repr

/-- Dispatch of one event (`stt.ts`): `sendAudio` forwards the buffer iff
the socket is open (best-effort no-op otherwise), and changes no state. -/
def sttStep (s : STTState) : STTEvent → STTState × List STTAction
  | .openEv => (openHandler s, [])
  | .closeEv => closeHandler s
  | .tick => (s, keepaliveTick s)
  | .audio n => (s, if s.wsOpen then [STTAction.forwardAudio n] else [])

/-- Run the client over a sequence of events, accumulating its actions. -/
def runSTT (s : STTState) : List STTEvent → STTState × List STTAction
  | [] => (s, [])
  | e :: es =>
    let p1 := sttStep s e
    let p2 := runSTT p1.1 es
    (p2.1, p1.2 ++ p2.2)

/-- `data.channel.alternatives[i]` of a Deepgram message. -/
structure DGAlternative where
  transcript : Option String
deriving DecidableEq, Repr

/-- `data.channel` of a Deepgram message. -/
structure DGChannel where
  alternatives : Option (List DGAlternative)
deriving DecidableEq, Repr

/-- The parsed shape the `message` handler reads: `speech_final` and
`channel.alternatives[0].transcript`, every level optional. -/
structure DGMessage where
  speech_final : Option Bool
  channel : Option DGChannel
deriving DecidableEq, Repr

/-- The optional chain `data?.channel?.alternatives?.[0]?.transcript`. -/
def firstTranscript (m : DGMessage) : Option String :=
  match m.channel with
  | none => none
  | some ch =>
    match ch.alternatives with
    | none => none
    | some alts =>
      match alts.head? with
      | none => none
      | some alt => alt.transcript

/-- What the `message` handler does with one inbound message. -/
inductive MsgOutcome
  | invoke (t : String)
  | drop
  | logParseError
deriving DecidableEq, Repr

/-- The `message` handler of `startSTT` (`stt.ts`).  `none` models a
payload `JSON.parse` throws on (the `catch` logs and returns).  The guard
`transcript && data.speech_final === true` invokes the callback only when
the first alternative's transcript is present and truthy (the empty string
is falsy) and the finality flag is strictly `true`.  The handler is a total
function: no branch throws past it. -/
def messageHandler (raw : Option DGMessage) : MsgOutcome :=
  match raw with
  | none => MsgOutcome.logParseError
  | some m =>
    match firstTranscript m with
    | some t =>
      if t ≠ "" ∧ m.speech_final = some true then MsgOutcome.invoke t
      else MsgOutcome.drop
    | none => MsgOutcome.drop

/-! ## Silence watchdog (`silence.ts`) -/

/-- `silence.ts` module state: whether the single 20 s timer is armed,
whether a reminder promise is pending, the module's own `state` copy
(written by `updateState`), and whether `setSpeakCallback` has run. -/
structure SilState where
  armed : Bool
  pending : Bool
  st : AgentState
  hasCallback : Bool
deriving DecidableEq, Repr

/-- Calls the watchdog makes: invoking the injected reminder callback, and
logging a rejected reminder promise. -/
inductive SilAction
  | invokeReminder
  | logPromiseError
deriving DecidableEq, Repr

/-- Events driving `silence.ts`: an explicit `resetSilenceTimer()` call, a
`updateState` call, the 20 s timeout firing, and the pending reminder
promise settling (`ok = true` resolution runs the `then` branch, `ok =
false` rejection runs the `catch`). -/
inductive SilEvent
  | resetTimer
  | updState (st : AgentState)
  | expire
  | settled (ok : Bool)
deriving DecidableEq, Repr

/-- One step of `silence.ts`: `resetSilenceTimer` cancels and re-arms the
single timer; on expiry the timeout consumes itself (one-shot), and only if
the module state is `LISTENING` and a callback is registered is the
reminder invoked; a resolved reminder re-arms via the `then` branch's
`resetSilenceTimer()`; a rejected one only logs, leaving the timer
un-armed. -/
def silStep (s : SilState) : SilEvent → SilState × List SilAction
  | .resetTimer => ({ s with armed := true }, [])
  | .updState st2 => ({ s with st := st2 }, [])
  | .expire =>
    if s.armed then
      if s.st = AgentState.LISTENING ∧ s.hasCallback then
        ({ s with armed := false, pending := true }, [SilAction.invokeReminder])
      else ({ s with armed := false }, [])
    else (s, [])
  | .settled ok =>
    if s.pending then
      if ok then ({ s with pending := false, armed := true }, [])
      else ({ s with pending := false }, [SilAction.logPromiseError])
    else (s, [])

/-- Run the watchdog over a sequence of events, accumulating actions. -/
def runSil (s : SilState) : List SilEvent → SilState × List SilAction
  | [] => (s, [])
  | e :: es =>
    let p1 := silStep s e
    let p2 := runSil p1.1 es
    (p2.1, p1.2 ++ p2.2)

/-! ## Two overlapping `speak` executions (for the no-overlap question)

`speak` only yields control at its `await`s, so an interleaving of two
executions is a schedule of await-to-await segments.  Each phase below is
such a segment boundary of the successful non-degenerate path (registered,
MP3 of at least 100 bytes, conversion succeeding, nonempty PCM). -/

/-- Suspension-point phase of one in-flight `speak` execution. -/
inductive Phase
  | ready
  | fetchWait
  | convertWait
  | frameWait (k : Nat)
  | settledP
deriving DecidableEq, Repr

/-- One in-flight `speak` execution: its phase and its total frame count
(`Math.floor(samples / 480)`). -/
structure SpeakThread where
  phase : Phase
  total : Nat
deriving DecidableEq, Repr

/-- Events of the interleaved system: a frame issued to the sink by the
first (`tid = true`) or second execution, and an `updateState` call. -/
inductive ConcEvent
  | send (tid : Bool) (k : Nat)
  | upd (tid : Bool) (st : AgentState)
deriving DecidableEq, Repr

/-- Run one execution from its current suspension point to the next
(`tts.ts`): the opening segment sets the shared `isSpeaking` flag `true`
and starts the fetch; resuming from the fetch or the conversion first
checks the flag (a cleared flag runs the `finally`: flag cleared, state
`LISTENING`); the loop issues `captureFrame` while the flag holds; loop
exit — by interruption or completion — runs the `finally`. -/
def threadStep (tid : Bool) (flag : Bool) (t : SpeakThread) :
    Bool × SpeakThread × List ConcEvent :=
  match t.phase with
  | .ready =>
    (true, { t with phase := Phase.fetchWait },
      [ConcEvent.upd tid AgentState.SPEAKING])
  | .fetchWait =>
    if flag then (flag, { t with phase := Phase.convertWait }, [])
    else (false, { t with phase := Phase.settledP },
      [ConcEvent.upd tid AgentState.LISTENING])
  | .convertWait =>
    if flag then
      if t.total = 0 then
        (false, { t with phase := Phase.settledP },
          [ConcEvent.upd tid AgentState.LISTENING])
      else (flag, { t with phase := Phase.frameWait 0 }, [ConcEvent.send tid 0])
    else (false, { t with phase := Phase.settledP },
      [ConcEvent.upd tid AgentState.LISTENING])
  | .frameWait k =>
    if flag then
      if k + 1 < t.total then
        (flag, { t with phase := Phase.frameWait (k + 1) },
          [ConcEvent.send tid (k + 1)])
      else (false, { t with phase := Phase.settledP },
        [ConcEvent.upd tid AgentState.LISTENING])
    else (false, { t with phase := Phase.settledP },
      [ConcEvent.upd tid AgentState.LISTENING])
  | .settledP => (flag, t, [])

/-- The shared flag and the two in-flight executions. -/
structure ConcSys where
  flag : Bool
  ta : SpeakThread
  tb : SpeakThread
deriving DecidableEq, Repr

/-- Let the scheduled execution run to its next suspension point. -/
def sysStep (s : ConcSys) (tid : Bool) : ConcSys × List ConcEvent :=
  if tid then
    let r := threadStep true s.flag s.ta
    ({ s with flag := r.1, ta := r.2.1 }, r.2.2)
  else
    let r := threadStep false s.flag s.tb
    ({ s with flag := r.1, tb := r.2.1 }, r.2.2)

/-- Run the system under a schedule (the list of which execution resumes at
each event-loop turn), accumulating events. -/
def runConc (s : ConcSys) : List Bool → ConcSys × List ConcEvent
  | [] => (s, [])
  | tid :: rest =>
    let p1 := sysStep s tid
    let p2 := runConc p1.1 rest
    (p2.1, p1.2 ++ p2.2)

/-- The thread ids of the frame-send events of a trace, in order. -/
def sendTids (evs : List ConcEvent) : List Bool :=
  evs.filterMap fun e =>
    match e with
    | ConcEvent.send tid _ => some tid
    | _ => none

/-! ## Helper lemmas -/

/-- Every registered `speak` execution makes exactly the `updateState` calls
`SPEAKING` (at entry) and `LISTENING` (in the `finally`), on every path. -/
lemma speak_trace (env : SpeakEnv) (h : env.registered = true) :
    (speak env).stateTrace = [AgentState.SPEAKING, AgentState.LISTENING] := by
  obtain ⟨reg, fo, co, st, fe⟩ := env
  simp only at h
  subst h
  rcases fo with u | mp3
  · rfl
  · rcases co with v | pcm <;>
      · simp only [speak]
        repeat' split
        all_goals simp_all

/-- With no interruption and no frame error, the send loop delivers every
chunk. -/
lemma sendLoop_never (chunks : List (List Int)) :
    ∀ k, sendLoop StopAt.never none k chunks = chunks := by
  induction chunks with
  | nil => intro k; rfl
  | cons c rest ih =>
    intro k
    simp [sendLoop, stopObservedAt, ih]

/-- A stop during frame `i`'s send lets at most `i + 1 - k` further frames
through from iteration `k` on. -/
lemma sendLoop_stop_length (i : Nat) (fe : Option Nat) :
    ∀ (chunks : List (List Int)) (k : Nat),
      (sendLoop (StopAt.duringFrame i) fe k chunks).length ≤ i + 1 - k := by
  intro chunks
  induction chunks with
  | nil => intro k; simp [sendLoop]
  | cons c rest ih =>
    intro k
    simp only [sendLoop]
    split
    · simp
    · split
      · simp
      · rename_i h1 h2
        have hk : k ≤ i := by
          simp [stopObservedAt] at h1
          omega
        have h3 := ih (k + 1)
        simp only [List.length_cons]
        omega

/-- The number of full 480-sample chunks is `length / 480`. -/
lemma fullChunks_length (s : List Int) :
    (fullChunks s).length = s.length / SAMPLES_PER_FRAME := by
  induction s using fullChunks.induct with
  | case1 s h ih =>
    rw [fullChunks, dif_pos h]
    simp only [List.length_cons, ih, List.length_drop]
    have hpos : 0 < SAMPLES_PER_FRAME := by decide
    rw [Nat.div_eq_sub_div hpos h]
  | case2 s h =>
    rw [fullChunks, dif_neg h]
    simp only [List.length_nil]
    rw [Nat.div_eq_of_lt (by omega)]

/-- Every chunk produced by `fullChunks` has exactly 480 samples. -/
lemma fullChunks_chunk_length (s : List Int) :
    ∀ c ∈ fullChunks s, c.length = SAMPLES_PER_FRAME := by
  induction s using fullChunks.induct with
  | case1 s h ih =>
    rw [fullChunks, dif_pos h]
    intro c hc
    rcases List.mem_cons.mp hc with hc | hc
    · subst hc
      simp [List.length_take]
      omega
    · exact ih c hc
  | case2 s h =>
    rw [fullChunks, dif_neg h]
    intro c hc
    simp at hc

/-- Concatenating the full chunks gives back the PCM prefix of length
`480 * (length / 480)`: the trailing residue appears in no chunk. -/
lemma fullChunks_flatten (s : List Int) :
    (fullChunks s).flatten =
      s.take (SAMPLES_PER_FRAME * (s.length / SAMPLES_PER_FRAME)) := by
  induction s using fullChunks.induct with
  | case1 s h ih =>
    rw [fullChunks, dif_pos h]
    have hpos : 0 < SAMPLES_PER_FRAME := by decide
    rw [List.flatten_cons, ih]
    rw [List.length_drop, Nat.div_eq_sub_div hpos h]
    rw [Nat.mul_add, Nat.mul_one, Nat.add_comm]
    rw [List.take_add]
  | case2 s h =>
    rw [fullChunks, dif_neg h]
    rw [Nat.div_eq_of_lt (by omega), Nat.mul_zero, List.take_zero]
    rfl

/-! ## Claims -/

/-- C5: the transcription client's `message` handler invokes `onTranscript`
for an inbound message iff the message parses, its first transcript
alternative is non-empty, and its finality flag is strictly `true`; interim
results are dropped and unparseable messages are logged and dropped by a
handler that never throws (it is a total function). -/
theorem stt_transcript_gate :
    (∀ (raw : Option DGMessage) (t : String),
      messageHandler raw = MsgOutcome.invoke t ↔
        ∃ m, raw = some m ∧ firstTranscript m = some t ∧ t ≠ "" ∧
          m.speech_final = some true) ∧
    messageHandler none = MsgOutcome.logParseError := by
  constructor
  · intro raw t
    constructor
    · intro h
      rcases raw with _ | m
      · simp [messageHandler] at h
      · refine ⟨m, rfl, ?_⟩
        rcases hm : firstTranscript m with _ | u
        · simp [messageHandler, hm] at h
        · simp only [messageHandler, hm] at h
          split at h
          · rename_i hcond
            injection h with h2
            subst h2
            exact ⟨rfl, hcond.1, hcond.2⟩
          · cases h
    · rintro ⟨m, rfl, hm, ht, hf⟩
      simp [messageHandler, hm, ht, hf]
  · rfl

/-- Witness for `stt_transcript_gate` at a concrete final message. -/
theorem stt_transcript_gate_witness :
    messageHandler
      (some ⟨some true, some ⟨some [⟨some "hello"⟩]⟩⟩) =
      MsgOutcome.invoke "hello" :=
  (stt_transcript_gate.1
    (some ⟨some true, some ⟨some [⟨some "hello"⟩]⟩⟩) "hello").mpr
    ⟨⟨some true, some ⟨some [⟨some "hello"⟩]⟩⟩, rfl, rfl, by decide, rfl⟩

/-- C6: on every close event the close handler clears the keepalive timer,
and unless the deliberate-shutdown flag `dead` is set it schedules exactly
one reconnect after the fixed `RECONNECT_MS` delay; the decision is
independent of how many closes have already happened (no retry ceiling). -/
theorem stt_close_reconnect :
    ∀ s : STTState,
      (closeHandler s).1.keepalivePeriod = none ∧
      (s.dead = false →
        (closeHandler s).2 = [STTAction.scheduleConnect RECONNECT_MS]) ∧
      (s.dead = true → (closeHandler s).2 = []) ∧
      (∀ n, (closeHandler { s with closes := n }).2 = (closeHandler s).2) := by
  intro s
  refine ⟨rfl, ?_, ?_, ?_⟩
  · intro h
    simp [closeHandler, h]
  · intro h
    simp [closeHandler, h]
  · intro n
    rfl

/-- Witness for `stt_close_reconnect` on a live, non-shutdown state. -/
theorem stt_close_reconnect_witness :
    (closeHandler ⟨true, some KEEPALIVE_MS, false, 7⟩).1.keepalivePeriod = none ∧
    (closeHandler ⟨true, some KEEPALIVE_MS, false, 7⟩).2 =
      [STTAction.scheduleConnect RECONNECT_MS] :=
  ⟨(stt_close_reconnect ⟨true, some KEEPALIVE_MS, false, 7⟩).1,
   (stt_close_reconnect ⟨true, some KEEPALIVE_MS, false, 7⟩).2.1 rfl⟩

/-- C7: the keepalive period is strictly below the backend's idle-close
window, the open handler (re)starts the interval with that period, and
while the socket is open every interval firing sends the keepalive control
message even when no `sendAudio` call ever happens (a run of ticks alone
produces one keepalive per tick). -/
theorem stt_keepalive :
    KEEPALIVE_MS < DEEPGRAM_IDLE_CLOSE_MS ∧
    (∀ s : STTState, (openHandler s).keepalivePeriod = some KEEPALIVE_MS) ∧
    (∀ (s : STTState) (n : Nat), s.wsOpen = true →
      (runSTT s (List.replicate n STTEvent.tick)).2 =
        List.replicate n STTAction.sendKeepAlive) := by
  refine ⟨by decide, fun s => rfl, ?_⟩
  intro s n h
  induction n with
  | zero => rfl
  | succ n ih =>
    rw [List.replicate_succ, List.replicate_succ]
    simp only [runSTT, sttStep, keepaliveTick, h, if_true, ih]
    rfl

/-- Witness for `stt_keepalive`: three ticks on an open idle connection. -/
theorem stt_keepalive_witness :
    (runSTT ⟨true, some KEEPALIVE_MS, false, 0⟩
        (List.replicate 3 STTEvent.tick)).2 =
      List.replicate 3 STTAction.sendKeepAlive :=
  stt_keepalive.2.2 ⟨true, some KEEPALIVE_MS, false, 0⟩ 3 rfl

/-- C8: every inbound room frame is forwarded to `stt.sendAudio`, whatever
the current agent state and whatever the frame's activity classification. -/
theorem frames_always_forwarded :
    ∀ (s : CoordState) (frame : List Int),
      CoordAction.sendAudio frame ∈ (processFrame s frame).2 := by
  intro s frame
  by_cases h1 : s.isSpeaking && hasAudioEnergy frame <;>
    by_cases h2 : hasAudioEnergy frame <;>
      simp [processFrame, h1, h2]

/-- C2 (amended): the frame-loop's watchdog re-arming is exactly
`hasAudioEnergy`, which is deterministic and monotone in the frame's RMS
energy; a frame whose RMS is at or below the fixed threshold (sum of
squares at most `300 ^ 2 ·  length`) never re-arms the watchdog, and a frame
whose RMS is strictly above it always does. -/
theorem vad_threshold_gate :
    ∀ (s : CoordState) (f g : List Int),
      (CoordAction.resetSilence ∈ (processFrame s f).2 ↔
        hasAudioEnergy f = true) ∧
      (sumSq f ≤ SPEECH_RMS_THRESHOLD ^ 2 * (f.length : Int) →
        CoordAction.resetSilence ∉ (processFrame s f).2) ∧
      (SPEECH_RMS_THRESHOLD ^ 2 * (f.length : Int) < sumSq f →
        CoordAction.resetSilence ∈ (processFrame s f).2) ∧
      (f.length = g.length → sumSq f ≤ sumSq g →
        hasAudioEnergy f = true → hasAudioEnergy g = true) := by
  intro s f g
  have hmem : CoordAction.resetSilence ∈ (processFrame s f).2 ↔
      hasAudioEnergy f = true := by
    by_cases h1 : s.isSpeaking && hasAudioEnergy f <;>
      by_cases h2 : hasAudioEnergy f <;>
        simp_all [processFrame]
  refine ⟨hmem, ?_, ?_, ?_⟩
  · intro hle
    rw [hmem]
    simp only [hasAudioEnergy, decide_eq_true_eq]
    exact not_lt.mpr hle
  · intro hlt
    rw [hmem]
    simp only [hasAudioEnergy, decide_eq_true_eq]
    exact hlt
  · intro hlen hle hf
    simp only [hasAudioEnergy, decide_eq_true_eq] at hf ⊢
    rw [← hlen]
    exact lt_of_lt_of_le hf hle

/-- Witness for `vad_threshold_gate`: a one-sample frame strictly above the
threshold re-arms the watchdog. -/
theorem vad_threshold_gate_witness :
    CoordAction.resetSilence ∈
      (processFrame ⟨AgentState.LISTENING, false⟩ [(301 : Int)]).2 :=
  (vad_threshold_gate ⟨AgentState.LISTENING, false⟩
    [(301 : Int)] [(301 : Int)]).2.2.1 (by decide)

/-- C2 (counterexample): a 480-sample frame whose samples all equal 300 has
RMS exactly at the threshold (`sumSq = 300 ^ 2 · 480`), yet is classified
inactive (`Math.sqrt(sumSq / n) > 300` is strict) and does not re-arm the
watchdog — refuting "a frame whose RMS is at or above the threshold always
re-arms it". -/
theorem vad_threshold_counterexample :
    sumSq (List.replicate 480 (300 : Int)) =
      SPEECH_RMS_THRESHOLD ^ 2 * ((List.replicate 480 (300 : Int)).length : Int) ∧
    hasAudioEnergy (List.replicate 480 (300 : Int)) = false ∧
    CoordAction.resetSilence ∉
      (processFrame ⟨AgentState.LISTENING, false⟩
        (List.replicate 480 (300 : Int))).2 := by
  refine ⟨by decide, by decide, by decide⟩

/-- C3: every registered `speak` execution — normal completion, degenerate
payload, interruption at any suspension point, or an error in any step —
restores the shared state to `LISTENING` exactly once, as its final
`updateState` call. -/
theorem speak_restores_listening_once :
    ∀ env : SpeakEnv, env.registered = true →
      (speak env).stateTrace.count AgentState.LISTENING = 1 ∧
      (speak env).stateTrace.getLast? = some AgentState.LISTENING := by
  intro env h
  rw [speak_trace env h]
  exact ⟨by decide, rfl⟩

/-- Witness for `speak_restores_listening_once` on a degenerate-PCM run. -/
theorem speak_restores_listening_once_witness :
    (speak ⟨true, Except.ok 5000, Except.ok [], StopAt.never,
        none⟩).stateTrace.count AgentState.LISTENING = 1 ∧
    (speak ⟨true, Except.ok 5000, Except.ok [], StopAt.never,
        none⟩).stateTrace.getLast? = some AgentState.LISTENING :=
  speak_restores_listening_once
    ⟨true, Except.ok 5000, Except.ok [], StopAt.never, none⟩ rfl

/-- C9: an uninterrupted, error-free `speak` whose decoded PCM has `n`
samples hands the sink exactly `n / 480` frames of exactly 480 samples
each; their concatenation is the PCM's prefix of length `480 · (n / 480)`,
so the trailing residue of fewer than 480 samples never reaches the sink. -/
theorem uninterrupted_framing :
    ∀ (env : SpeakEnv) (mp3Len : Nat) (pcm : List Int),
      env.registered = true →
      env.fetchOutcome = Except.ok mp3Len →
      100 ≤ mp3Len →
      env.convertOutcome = Except.ok pcm →
      env.stopAt = StopAt.never →
      env.frameErrAt = none →
      (speak env).sent.length = pcm.length / SAMPLES_PER_FRAME ∧
      (∀ c ∈ (speak env).sent, c.length = SAMPLES_PER_FRAME) ∧
      (speak env).sent.flatten =
        pcm.take (SAMPLES_PER_FRAME * (pcm.length / SAMPLES_PER_FRAME)) := by
  intro env mp3Len pcm hreg hfo hlen hco hstop hfe
  have hsent : (speak env).sent = fullChunks pcm := by
    obtain ⟨reg, fo, co, st, fe⟩ := env
    simp only at hreg hfo hco hstop hfe
    subst hreg; subst hfo; subst hco; subst hstop; subst hfe
    simp only [speak]
    rw [if_neg (by decide)]
    rw [if_neg (by omega)]
    rw [if_neg (by decide)]
    rw [if_neg (by decide)]
    by_cases hp : pcm.length = 0
    · rw [if_pos hp]
      rw [fullChunks, dif_neg (by simp [SAMPLES_PER_FRAME]; omega)]
    · rw [if_neg hp]
      exact sendLoop_never (fullChunks pcm) 0
  rw [hsent]
  exact ⟨fullChunks_length pcm, fullChunks_chunk_length pcm,
    fullChunks_flatten pcm⟩

/-- Witness for `uninterrupted_framing`: 481 decoded samples yield one
480-sample frame; the one-sample residue is discarded. -/
theorem uninterrupted_framing_witness :
    (speak ⟨true, Except.ok 5000, Except.ok (List.replicate 481 (0 : Int)),
        StopAt.never, none⟩).sent.length =
      (List.replicate 481 (0 : Int)).length / SAMPLES_PER_FRAME ∧
    (∀ c ∈ (speak ⟨true, Except.ok 5000,
        Except.ok (List.replicate 481 (0 : Int)), StopAt.never, none⟩).sent,
      c.length = SAMPLES_PER_FRAME) ∧
    (speak ⟨true, Except.ok 5000, Except.ok (List.replicate 481 (0 : Int)),
        StopAt.never, none⟩).sent.flatten =
      (List.replicate 481 (0 : Int)).take
        (SAMPLES_PER_FRAME *
          ((List.replicate 481 (0 : Int)).length / SAMPLES_PER_FRAME)) :=
  uninterrupted_framing
    ⟨true, Except.ok 5000, Except.ok (List.replicate 481 (0 : Int)),
      StopAt.never, none⟩ 5000 (List.replicate 481 (0 : Int))
    rfl rfl (by omega) rfl rfl rfl

/-- C1 (counterexample): in `speak`'s body the synthesis fetch is the (only)
op at index 3 and no `!isSpeaking` check occurs before it — the first check
sits after the fetch — refuting "the flag is checked before the synthesis
network fetch begins". -/
theorem interrupt_check_counterexample :
    speakOps.get? 3 = some SpeakOp.fetchMp3 ∧
    speakOps.count SpeakOp.fetchMp3 = 1 ∧
    (speakOps.take 4).count SpeakOp.checkFlag = 0 ∧
    (speakOps.take 4).count SpeakOp.setFlagTrue = 1 := by
  decide

/-- C1 (amended): the flag is set true at the start of `speak` (right after
the registration guard) and checked after the fetch (before transcoding),
after transcoding (before the frame loop), and between every frame send —
but not before the fetch begins; whenever `stopSpeaking` has cleared the
flag, the pipeline aborts at the next check: a stop during the fetch or the
conversion lets no frame through, and a stop during frame `i`'s send lets
at most the in-flight frame complete (at most `i + 1` frames in total). -/
theorem interrupt_checks :
    speakOps.get? 1 = some SpeakOp.setFlagTrue ∧
    (∀ env : SpeakEnv, env.stopAt = StopAt.duringFetch →
      (speak env).sent = []) ∧
    (∀ env : SpeakEnv, env.stopAt = StopAt.duringConvert →
      (speak env).sent = []) ∧
    (∀ (env : SpeakEnv) (i : Nat), env.stopAt = StopAt.duringFrame i →
      (speak env).sent.length ≤ i + 1) := by
  refine ⟨rfl, ?_, ?_, ?_⟩
  · rintro ⟨reg, fo, co, st, fe⟩ hstop
    simp only at hstop
    subst hstop
    rcases reg <;> rcases fo with u | mp3 <;> rcases co with v | pcm <;>
      · simp only [speak]
        repeat' split
        all_goals try rfl
        all_goals simp_all
  · rintro ⟨reg, fo, co, st, fe⟩ hstop
    simp only at hstop
    subst hstop
    rcases reg <;> rcases fo with u | mp3 <;> rcases co with v | pcm <;>
      · simp only [speak]
        repeat' split
        all_goals try rfl
        all_goals simp_all
  · rintro ⟨reg, fo, co, st, fe⟩ i hstop
    simp only at hstop
    subst hstop
    rcases reg <;> rcases fo with u | mp3 <;> rcases co with v | pcm <;>
      · simp only [speak]
        repeat' split
        all_goals try simp_all
        all_goals
          have h3 := sendLoop_stop_length i fe (fullChunks pcm) 0
          omega

/-- Witness for `interrupt_checks`: a stop during the conversion await
aborts before any frame is sent. -/
theorem interrupt_checks_witness :
    (speak ⟨true, Except.ok 5000, Except.ok (List.replicate 960 (0 : Int)),
        StopAt.duringConvert, none⟩).sent = [] :=
  interrupt_checks.2.2.1
    ⟨true, Except.ok 5000, Except.ok (List.replicate 960 (0 : Int)),
      StopAt.duringConvert, none⟩ rfl

/-- From an un-armed watchdog with no pending reminder, no sequence of
events that lacks an explicit `resetSilenceTimer` call can invoke the
reminder again. -/
lemma runSil_no_fire :
    ∀ (evs : List SilEvent) (s : SilState),
      s.armed = false → s.pending = false →
      SilEvent.resetTimer ∉ evs →
      SilAction.invokeReminder ∉ (runSil s evs).2 := by
  intro evs
  induction evs with
  | nil =>
    intro s ha hp hne
    simp [runSil]
  | cons e es ih =>
    intro s ha hp hne
    have he : e ≠ SilEvent.resetTimer := fun h =>
      hne (h ▸ List.mem_cons_self e es)
    have hes : SilEvent.resetTimer ∉ es := fun h =>
      hne (List.mem_cons_of_mem e h)
    cases e with
    | resetTimer => exact absurd rfl he
    | updState st2 =>
      simp only [runSil, silStep]
      simp only [List.nil_append]
      exact ih _ ha hp hes
    | expire =>
      simp only [runSil, silStep, ha, Bool.false_eq_true, if_false,
        List.nil_append]
      exact ih _ ha hp hes
    | settled ok =>
      simp only [runSil, silStep, hp, Bool.false_eq_true, if_false,
        List.nil_append]
      exact ih _ ha hp hes

/-- C10: when the pending reminder promise rejects, the watchdog only logs
(the `catch` branch) and is left un-armed, and no later event short of an
explicit `resetSilenceTimer()` (driven by qualifying audio) can fire the
reminder again. -/
theorem reminder_rejection_disarms :
    ∀ (s : SilState) (evs : List SilEvent),
      s.armed = false → s.pending = true →
      SilEvent.resetTimer ∉ evs →
      (silStep s (SilEvent.settled false)).2 = [SilAction.logPromiseError] ∧
      (silStep s (SilEvent.settled false)).1.armed = false ∧
      SilAction.invokeReminder ∉
        (runSil (silStep s (SilEvent.settled false)).1 evs).2 := by
  intro s evs ha hp hne
  refine ⟨?_, ?_, ?_⟩
  · simp [silStep, hp]
  · simp [silStep, hp, ha]
  · apply runSil_no_fire evs _ _ _ hne
    · simp [silStep, hp, ha]
    · simp [silStep, hp]

/-- Witness for `reminder_rejection_disarms`: after a fired timer's reminder
rejects, two further expirations and a state change fire nothing. -/
theorem reminder_rejection_disarms_witness :
    (silStep ⟨false, true, AgentState.LISTENING, true⟩
        (SilEvent.settled false)).2 = [SilAction.logPromiseError] ∧
    (silStep ⟨false, true, AgentState.LISTENING, true⟩
        (SilEvent.settled false)).1.armed = false ∧
    SilAction.invokeReminder ∉
      (runSil (silStep ⟨false, true, AgentState.LISTENING, true⟩
          (SilEvent.settled false)).1
        [SilEvent.expire, SilEvent.updState AgentState.SPEAKING,
          SilEvent.expire]).2 :=
  reminder_rejection_disarms ⟨false, true, AgentState.LISTENING, true⟩
    [SilEvent.expire, SilEvent.updState AgentState.SPEAKING, SilEvent.expire]
    rfl rfl (by decide)

/-- C4 (counterexample): a watchdog reminder racing a transcript reply —
two `speak` executions of two frames each, the second starting while the
first awaits its first `captureFrame` — yields the send order
first-execution frame 0, second-execution frame 0, first-execution frame 1:
both frame loops have frames in flight concurrently, and both are still
mid-loop afterwards. -/
theorem no_overlap_counterexample :
    sendTids (runConc ⟨false, ⟨Phase.ready, 2⟩, ⟨Phase.ready, 2⟩⟩
        [true, true, true, false, false, false, true]).2 =
      [true, false, true] ∧
    (runConc ⟨false, ⟨Phase.ready, 2⟩, ⟨Phase.ready, 2⟩⟩
        [true, true, true, false, false, false, true]).1.ta.phase =
      Phase.frameWait 1 ∧
    (runConc ⟨false, ⟨Phase.ready, 2⟩, ⟨Phase.ready, 2⟩⟩
        [true, true, true, false, false, false, true]).1.tb.phase =
      Phase.frameWait 0 := by
  decide

/-- `sendTids` distributes over trace concatenation. -/
lemma sendTids_append (a b : List ConcEvent) :
    sendTids (a ++ b) = sendTids a ++ sendTids b := by
  simp [sendTids, List.filterMap_append]

/-- Unfolding of one scheduled turn of the interleaved system. -/
lemma runConc_cons (s : ConcSys) (tid : Bool) (rest : List Bool) :
    (runConc s (tid :: rest)).2 =
      (sysStep s tid).2 ++ (runConc (sysStep s tid).1 rest).2 := rfl

/-- Stepping a thread past its opening segment with the shared flag false
sends nothing, keeps the flag false, and cannot re-enter the opening
segment. -/
lemma threadStep_flag_false (tid : Bool) (t : SpeakThread)
    (h : t.phase ≠ Phase.ready) :
    (threadStep tid false t).1 = false ∧
    (threadStep tid false t).2.1.phase ≠ Phase.ready ∧
    sendTids (threadStep tid false t).2.2 = [] := by
  cases hp : t.phase <;> simp_all [threadStep, sendTids]

/-- C4 (amended): the interruption flag does not serialize overlapping
`speak` executions (see the counterexample), but it does guarantee: in
every interleaving, once the shared flag is false and neither execution has
its opening segment (which re-sets the flag) left to run, no execution
sends any further frame. -/
theorem no_overlap_amended :
    ∀ (sched : List Bool) (s : ConcSys),
      s.flag = false →
      s.ta.phase ≠ Phase.ready →
      s.tb.phase ≠ Phase.ready →
      sendTids (runConc s sched).2 = [] := by
  intro sched
  induction sched with
  | nil =>
    intro s h1 h2 h3
    simp [runConc, sendTids]
  | cons tid rest ih =>
    intro s h1 h2 h3
    rw [runConc_cons, sendTids_append]
    cases tid
    · have hstep := threadStep_flag_false false s.tb h3
      have ea : (sysStep s false).2 = (threadStep false s.flag s.tb).2.2 := rfl
      rw [ea, h1, hstep.2.2, List.nil_append]
      refine ih (sysStep s false).1 ?_ ?_ ?_
      · show (threadStep false s.flag s.tb).1 = false
        rw [h1]
        exact hstep.1
      · exact h2
      · show (threadStep false s.flag s.tb).2.1.phase ≠ Phase.ready
        rw [h1]
        exact hstep.2.1
    · have hstep := threadStep_flag_false true s.ta h2
      have ea : (sysStep s true).2 = (threadStep true s.flag s.ta).2.2 := rfl
      rw [ea, h1, hstep.2.2, List.nil_append]
      refine ih (sysStep s true).1 ?_ ?_ ?_
      · show (threadStep true s.flag s.ta).1 = false
        rw [h1]
        exact hstep.1
      · show (threadStep true s.flag s.ta).2.1.phase ≠ Phase.ready
        rw [h1]
        exact hstep.2.1
      · exact h3

/-- Witness for `no_overlap_amended`: with the flag cleared and one
execution mid-loop, one awaiting conversion, a four-turn schedule sends no
frame. -/
theorem no_overlap_amended_witness :
    sendTids (runConc ⟨false, ⟨Phase.frameWait 0, 2⟩, ⟨Phase.convertWait, 3⟩⟩
        [true, false, true, false]).2 = [] :=
  no_overlap_amended [true, false, true, false]
    ⟨false, ⟨Phase.frameWait 0, 2⟩, ⟨Phase.convertWait, 3⟩⟩
    rfl (by decide) (by decide)

end VoiceAgent
